import Mathlib

/-!
Verification of the viewing-slot scheduling and booking subsystem
(`app/api/viewings.py`, `app/core/scheduler.py`, `app/models/booking.py`,
`app/models/viewing.py`, `app/models/viewing_invitation.py`,
`app/schemas/viewing.py`).

The embedding models the persistent store as an explicit `DB` value and each
endpoint as a pure function `... → Except ApiError (DB × result)`: a raised
`HTTPException` in the source becomes `.error`, and since FastAPI discards the
session without committing on a raise, an `.error` result carries no new state.
Times are integer seconds (UTC); `datetime.utcnow()` becomes an explicit `now`
argument.  UUIDs and the random `invitation_token` are modelled by the
freshness counter `DB.nextId` (what matters to the logic is uniqueness).
Authentication/ownership checks (`verify_property_owner`, landlord identity)
are out of the specified subsystem; property existence is kept, ownership is
dropped.  Notification e-mails have no effect on persistent state and are
dropped, except in the reminder scheduler where dispatch success gates the
`reminder_*_sent` flags: there the gateway is a Boolean oracle argument.
-/

set_option maxHeartbeats 1000000

/-- Slot type: `"individual"` or `"group"` (`app/models/viewing.py`). -/
inductive SlotType where
  | individual
  | group
deriving DecidableEq

/-- Access type: `"public"` or `"invited"` (`app/models/viewing.py`). -/
inductive AccessType where
  | public
  | invited
deriving DecidableEq

/-- Invitation status: `"pending"`, `"accepted"` or `"declined"`. -/
inductive InvStatus where
  | pending
  | accepted
  | declined
deriving DecidableEq

/-- Status string used in the `detail` of the already-responded error
(`viewings.py` line 1063 interpolates `invitation.status`). -/
def InvStatus.text : InvStatus → String
  | .pending => "pending"
  | .accepted => "accepted"
  | .declined => "declined"

/-- An `HTTPException` raised by the subsystem: status code class plus the
German `detail` string, which is what keeps the spec's error kinds
(`NotFound`, `Conflict`, `CapacityExceeded`, temporal `BadRequest`, …)
distinguishable — capacity, duplicate and temporal errors all use HTTP 400
but different details. -/
inductive ApiError where
  | notFound (detail : String)
  | forbidden (detail : String)
  | badRequest (detail : String)
deriving DecidableEq

/-- `ViewingSlot` row (`app/models/viewing.py`); timestamps and the unused
`created_at`/`updated_at` columns are omitted. -/
structure ViewingSlot where
  id : Nat
  property_id : Nat
  start_time : Int
  end_time : Int
  slot_type : SlotType
  access_type : AccessType
  max_attendees : Nat
  notes : Option String
deriving DecidableEq

/-- `Booking` row (`app/models/booking.py`). -/
structure Booking where
  id : Nat
  slot_id : Nat
  first_name : String
  last_name : String
  email : String
  phone : Option String
  confirmed : Bool
  application_id : Option Nat
  invitation_id : Option Nat
  reminder_24h_sent : Bool
  reminder_1h_sent : Bool
  cancelled_at : Option Int
deriving DecidableEq

/-- `ViewingInvitation` row (`app/models/viewing_invitation.py`); the random
`secrets.token_urlsafe(32)` token is modelled by a fresh `Nat` (its unique
constraint is what the code relies on). -/
structure ViewingInvitation where
  id : Nat
  slot_id : Nat
  application_id : Nat
  status : InvStatus
  responded_at : Option Int
  invitation_token : Nat
deriving DecidableEq

/-- The fields of an `Application` row used by this subsystem
(`invite_applicant` checks `property_id`, `respond_to_invitation` copies the
contact data into the booking). -/
structure Application where
  id : Nat
  property_id : Nat
  first_name : String
  last_name : String
  email : String
  phone : Option String
deriving DecidableEq

/-- The persistent store visible to the subsystem.  `properties` is the set of
existing property ids (Property rows are external CRUD; only existence is
consulted here).  `nextId` models the UUID generator: every id already in the
store is below it. -/
structure DB where
  properties : List Nat
  applications : List Application
  slots : List ViewingSlot
  bookings : List Booking
  invitations : List ViewingInvitation
  nextId : Nat
deriving DecidableEq

/-- Model of `db.query(ViewingSlot).filter(ViewingSlot.id == slot_id).first()`. -/
def findSlot (db : DB) (sid : Nat) : Option ViewingSlot :=
  db.slots.find? (fun s => s.id == sid)

/-- Model of the live capacity query used by `book_viewing_slot`,
`respond_to_invitation` and `get_slot_response`:
`filter(slot_id == sid, confirmed == True, cancelled_at == None).count()`. -/
def activeCount (db : DB) (sid : Nat) : Nat :=
  db.bookings.countP (fun b => b.slot_id == sid && b.confirmed && b.cancelled_at.isNone)

/-- Model of the duplicate-booking query in `book_viewing_slot`
(lines 602–607): note it filters on `cancelled_at == None` only, not on
`confirmed`. -/
def findUncancelled (db : DB) (sid : Nat) (email : String) : Option Booking :=
  db.bookings.find? (fun b => b.slot_id == sid && b.email == email && b.cancelled_at.isNone)

def errPropertyNotFound : ApiError := .notFound "Immobilie nicht gefunden"
def errSlotNotFound : ApiError := .notFound "Besichtigungstermin nicht gefunden"
def errInvitedOnly : ApiError :=
  .forbidden "Dieser Termin ist nur für eingeladene Bewerber verfügbar"
def errNoSpots : ApiError := .badRequest "Keine Plätze mehr verfügbar"
def errAlreadyBooked : ApiError := .badRequest "Sie haben diesen Termin bereits gebucht"
def errPast : ApiError := .badRequest "Dieser Termin liegt bereits in der Vergangenheit"
def errBookingNotFound : ApiError := .notFound "Buchung nicht gefunden"
def errAlreadyCancelled : ApiError := .badRequest "Buchung wurde bereits storniert"
def errDeadline : ApiError :=
  .badRequest "Stornierung nicht mehr möglich (weniger als 1 Stunde vor Termin)"
def errApplicationNotFound : ApiError := .notFound "Bewerbung nicht gefunden"
def errAlreadyInvited : ApiError :=
  .badRequest "Bewerber wurde bereits zu diesem Termin eingeladen"
def errInvitationNotFound : ApiError := .notFound "Einladung nicht gefunden oder ungültig"
def errSlotGone : ApiError := .notFound "Termin nicht mehr verfügbar"
def errApplicationGone : ApiError := .notFound "Bewerbung nicht mehr verfügbar"
def errNoSpotsInvitation : ApiError := .badRequest "Leider sind keine Plätze mehr verfügbar"

/-- Validated payload of `ViewingSlotCreate` (`app/schemas/viewing.py`): the
pydantic layer guarantees `end_time > start_time` and
`1 ≤ max_attendees ≤ 100`; those bounds appear as hypotheses where needed. -/
structure ViewingSlotCreate where
  property_id : Nat
  start_time : Int
  end_time : Int
  slot_type : SlotType
  access_type : AccessType
  max_attendees : Nat
  notes : Option String
deriving DecidableEq

/-- Validated payload of `ViewingSlotBulkCreate`: `date` is kept as the
midnight timestamp `base_date`, and the validated `"HH:MM"` strings
`time_start`/`time_end` as minutes since midnight (the source parses them with
`map(int, s.split(":"))` and `base_date.replace(hour=..., minute=...)`).
The schema guarantees `time_end > time_start` (string comparison on the
zero-padded `"HH:MM"` pattern) and `0 ≤ slot_duration_minutes ≤ 480`. -/
structure ViewingSlotBulkCreate where
  property_id : Nat
  base_date : Int
  time_start : Nat
  time_end : Nat
  slot_duration_minutes : Nat
  slot_type : SlotType
  access_type : AccessType
  max_attendees : Nat
  notes : Option String
deriving DecidableEq

/-- Payload of `ViewingSlotUpdate`: every field optional, applied with
`exclude_unset=True` followed by `setattr`; this schema has no
individual-clamp validator. -/
structure ViewingSlotUpdate where
  start_time : Option Int := none
  end_time : Option Int := none
  slot_type : Option SlotType := none
  access_type : Option AccessType := none
  max_attendees : Option Nat := none
  notes : Option (Option String) := none
deriving DecidableEq

/-- Payload of `BookingCreate` (`app/schemas/booking.py`). -/
structure BookingCreate where
  first_name : String
  last_name : String
  email : String
  phone : Option String
  application_id : Option Nat
deriving DecidableEq

/-- The `response` literal of `ViewingInvitationRespondRequest`. -/
inductive RespondChoice where
  | accept
  | decline
deriving DecidableEq

/-- `POST /viewings` (`create_viewing_slot`, viewings.py lines 163–203):
property must exist (`verify_property_owner`; the ownership part of that check
is authorization, external to this subsystem), then `max_attendees` is forced
to 1 for individual slots and the row is inserted.  Returns the new slot id. -/
def createViewingSlot (db : DB) (d : ViewingSlotCreate) : Except ApiError (DB × Nat) :=
  if db.properties.contains d.property_id then
    let maxA := if d.slot_type = .individual then 1 else d.max_attendees
    let s : ViewingSlot :=
      { id := db.nextId, property_id := d.property_id, start_time := d.start_time,
        end_time := d.end_time, slot_type := d.slot_type, access_type := d.access_type,
        max_attendees := maxA, notes := d.notes }
    .ok ({ db with slots := db.slots ++ [s], nextId := db.nextId + 1 }, db.nextId)
  else
    .error errPropertyNotFound

/-- The `while current_start + slot_duration <= period_end` loop of
`create_bulk_slots` (viewings.py lines 264–279), producing the
`(start_time, end_time)` pairs in order. -/
def genSlotTimes (cur pend dur : Int) : List (Int × Int) :=
  if _h : 0 < dur ∧ cur + dur ≤ pend then
    (cur, cur + dur) :: genSlotTimes (cur + dur) pend dur
  else
    []
termination_by (pend - cur).toNat
decreasing_by omega

/-- `POST /viewings/bulk` (`create_bulk_slots`, viewings.py lines 206–292):
with `slot_duration_minutes = 0` one slot spanning the whole period, otherwise
the while-loop generation; individual slots are clamped to capacity 1 here
(the bulk schema has no clamp validator, the endpoint does it).  Returns the
ids of the created slots. -/
def createBulkSlots (db : DB) (d : ViewingSlotBulkCreate) : Except ApiError (DB × List Nat) :=
  if db.properties.contains d.property_id then
    let periodStart : Int := d.base_date + 60 * (d.time_start : Int)
    let periodEnd : Int := d.base_date + 60 * (d.time_end : Int)
    let maxA := if d.slot_type = .individual then 1 else d.max_attendees
    let times :=
      if d.slot_duration_minutes = 0 then
        [(periodStart, periodEnd)]
      else
        genSlotTimes periodStart periodEnd (60 * (d.slot_duration_minutes : Int))
    let newSlots := times.enum.map (fun p =>
      { id := db.nextId + p.1, property_id := d.property_id, start_time := p.2.1,
        end_time := p.2.2, slot_type := d.slot_type, access_type := d.access_type,
        max_attendees := maxA, notes := d.notes : ViewingSlot })
    .ok ({ db with slots := db.slots ++ newSlots, nextId := db.nextId + times.length },
         newSlots.map (fun s => s.id))
  else
    .error errPropertyNotFound

/-- The `for field, value in update_data.items(): setattr(slot, field, value)`
application of a `ViewingSlotUpdate` to a slot row.  No clamp, no
cross-field validation. -/
def applyUpdate (s : ViewingSlot) (u : ViewingSlotUpdate) : ViewingSlot :=
  { s with
    start_time := u.start_time.getD s.start_time,
    end_time := u.end_time.getD s.end_time,
    slot_type := u.slot_type.getD s.slot_type,
    access_type := u.access_type.getD s.access_type,
    max_attendees := u.max_attendees.getD s.max_attendees,
    notes := u.notes.getD s.notes }

/-- `PATCH /viewings/{slot_id}` (`update_viewing_slot`, viewings.py lines
331–429): 404 if the slot is missing, then the set fields are written
verbatim.  The reschedule e-mails on time change have no state effect and are
omitted; the ownership check is authorization, external to this subsystem. -/
def updateViewingSlot (db : DB) (sid : Nat) (u : ViewingSlotUpdate) :
    Except ApiError (DB × Unit) :=
  match findSlot db sid with
  | none => .error errSlotNotFound
  | some _ =>
    .ok ({ db with
           slots := db.slots.map (fun x => if x.id == sid then applyUpdate x u else x) }, ())

/-- The fresh booking row inserted by `book_viewing_slot`: `confirmed`
defaults to `True`, the reminder flags to `False`, `invitation_id` is not
set (`app/models/booking.py` column defaults). -/
def mkDirectBooking (bid sid : Nat) (d : BookingCreate) : Booking :=
  { id := bid, slot_id := sid, first_name := d.first_name, last_name := d.last_name,
    email := d.email, phone := d.phone, confirmed := true,
    application_id := d.application_id, invitation_id := none,
    reminder_24h_sent := false, reminder_1h_sent := false, cancelled_at := none }

/-- `POST /viewings/{slot_id}/book` (`book_viewing_slot`, viewings.py lines
553–668).  Check order as in the source: slot exists → slot public → capacity
(`confirmed_count >= max_attendees` rejects) → duplicate uncancelled booking
for the e-mail → `start_time < utcnow()` rejects → insert.  Returns the new
booking id. -/
def bookViewingSlot (now : Int) (sid : Nat) (d : BookingCreate) (db : DB) :
    Except ApiError (DB × Nat) :=
  match findSlot db sid with
  | none => .error errSlotNotFound
  | some slot =>
    if slot.access_type ≠ .public then
      .error errInvitedOnly
    else if slot.max_attendees ≤ activeCount db sid then
      .error errNoSpots
    else if (findUncancelled db sid d.email).isSome then
      .error errAlreadyBooked
    else if slot.start_time < now then
      .error errPast
    else
      .ok ({ db with
             bookings := db.bookings ++ [mkDirectBooking db.nextId sid d]
             nextId := db.nextId + 1 }, db.nextId)

/-- `DELETE /viewings/{slot_id}/bookings/{booking_id}` (`cancel_booking`,
viewings.py lines 671–747).  Check order as in the source: booking exists for
(id, slot) → not already cancelled → slot exists → reject when
`utcnow() > start_time - 1h` → `Booking.cancel()` sets `cancelled_at = now`
and `confirmed = False`.  Returns the `cancelled_at` value. -/
def cancelBooking (now : Int) (sid bid : Nat) (db : DB) : Except ApiError (DB × Int) :=
  match db.bookings.find? (fun b => b.id == bid && b.slot_id == sid) with
  | none => .error errBookingNotFound
  | some b =>
    if b.cancelled_at.isSome then
      .error errAlreadyCancelled
    else
      match findSlot db sid with
      | none => .error errSlotNotFound
      | some slot =>
        if slot.start_time - 3600 < now then
          .error errDeadline
        else
          .ok ({ db with bookings := db.bookings.map (fun x =>
                   if x.id == bid && x.slot_id == sid then
                     { x with cancelled_at := some now, confirmed := false }
                   else x) }, now)

/-- `POST /viewings/{slot_id}/invite` (`invite_applicant`, viewings.py lines
754–848): slot exists → application exists and belongs to the slot's property
→ no prior invitation for (slot, application) → insert a pending invitation
with a fresh unique token.  Returns the new invitation id. -/
def inviteApplicant (db : DB) (sid applicationId : Nat) : Except ApiError (DB × Nat) :=
  match findSlot db sid with
  | none => .error errSlotNotFound
  | some slot =>
    match db.applications.find?
        (fun a => a.id == applicationId && a.property_id == slot.property_id) with
    | none => .error errApplicationNotFound
    | some _ =>
      if (db.invitations.find?
            (fun i => i.slot_id == sid && i.application_id == applicationId)).isSome then
        .error errAlreadyInvited
      else
        let inv : ViewingInvitation :=
          { id := db.nextId, slot_id := sid, application_id := applicationId,
            status := .pending, responded_at := none, invitation_token := db.nextId }
        .ok ({ db with
               invitations := db.invitations ++ [inv]
               nextId := db.nextId + 1 }, db.nextId)

/-- `POST /viewings/invitation/{token}/respond` (`respond_to_invitation`,
viewings.py lines 1032–1152).  Check order as in the source: token known →
status still `pending` → slot exists → `start_time < utcnow()` rejects →
application exists → on decline, mark declined (the source's
HTTP-200-as-exception is modelled as a normal `.ok` with no booking, per the
spec's design note); on accept, capacity check first
(`confirmed_count >= max_attendees` rejects, leaving the invitation pending),
then `invitation.accept()` and the booking insert are committed together.
Returns the created booking id on accept. -/
def respondToInvitation (now : Int) (token : Nat) (choice : RespondChoice) (db : DB) :
    Except ApiError (DB × Option Nat) :=
  match db.invitations.find? (fun i => i.invitation_token == token) with
  | none => .error errInvitationNotFound
  | some inv =>
    if inv.status ≠ .pending then
      .error (.badRequest ("Einladung wurde bereits " ++ inv.status.text))
    else
      match findSlot db inv.slot_id with
      | none => .error errSlotGone
      | some slot =>
        if slot.start_time < now then
          .error errPast
        else
          match db.applications.find? (fun a => a.id == inv.application_id) with
          | none => .error errApplicationGone
          | some app =>
            match choice with
            | .decline =>
              .ok ({ db with invitations := db.invitations.map (fun i =>
                       if i.invitation_token == token then
                         { i with status := .declined, responded_at := some now }
                       else i) }, none)
            | .accept =>
              if slot.max_attendees ≤ activeCount db slot.id then
                .error errNoSpotsInvitation
              else
                let b : Booking :=
                  { id := db.nextId, slot_id := slot.id, first_name := app.first_name,
                    last_name := app.last_name, email := app.email, phone := app.phone,
                    confirmed := true, application_id := some app.id,
                    invitation_id := some inv.id, reminder_24h_sent := false,
                    reminder_1h_sent := false, cancelled_at := none }
                .ok ({ db with
                       invitations := db.invitations.map (fun i =>
                         if i.invitation_token == token then
                           { i with status := .accepted, responded_at := some now }
                         else i)
                       bookings := db.bookings ++ [b]
                       nextId := db.nextId + 1 }, some db.nextId)

/-- The 24-hour selection predicate of `send_reminders`
(`app/core/scheduler.py` lines 44–52): booking joined with its slot,
`start_time.between(now+23h, now+25h)` (SQLAlchemy `between` is inclusive on
both ends), `reminder_24h_sent == False`, `confirmed == True`,
`cancelled_at == None`. -/
def due24h (slots : List ViewingSlot) (now : Int) (b : Booking) : Bool :=
  match slots.find? (fun s => s.id == b.slot_id) with
  | none => false
  | some s =>
    decide (now + 23 * 3600 ≤ s.start_time) && decide (s.start_time ≤ now + 25 * 3600)
      && !b.reminder_24h_sent && b.confirmed && b.cancelled_at.isNone

/-- The 1-hour selection predicate of `send_reminders` (scheduler.py lines
105–113): window `[now+50min, now+70min]`, flag `reminder_1h_sent`. -/
def due1h (slots : List ViewingSlot) (now : Int) (b : Booking) : Bool :=
  match slots.find? (fun s => s.id == b.slot_id) with
  | none => false
  | some s =>
    decide (now + 50 * 60 ≤ s.start_time) && decide (s.start_time ≤ now + 70 * 60)
      && !b.reminder_1h_sent && b.confirmed && b.cancelled_at.isNone

/-- The per-item property lookup inside the dispatch loop (scheduler.py lines
57–62): when the slot's property row is gone the item is skipped with
`continue` — no dispatch, no flag change. -/
def reminderPropOk (slots : List ViewingSlot) (props : List Nat) (b : Booking) : Bool :=
  match slots.find? (fun s => s.id == b.slot_id) with
  | none => false
  | some s => props.contains s.property_id

/-- The effect of one iteration of the 24-hour loop body on its booking row:
when the row is due, its property exists and the dispatch (`sendOk`, the
Notification Gateway success oracle) succeeds, `reminder_24h_sent` is set;
otherwise — dispatch failure, missing property, or not selected — the row is
untouched (per-item failures are isolated by the loop's `try/except`). -/
def applyReminder24h (sendOk : Booking → Bool) (slots : List ViewingSlot)
    (props : List Nat) (now : Int) (b : Booking) : Booking :=
  if due24h slots now b && reminderPropOk slots props b && sendOk b then
    { b with reminder_24h_sent := true }
  else b

/-- The 1-hour analogue of `applyReminder24h`, setting `reminder_1h_sent`. -/
def applyReminder1h (sendOk : Booking → Bool) (slots : List ViewingSlot)
    (props : List Nat) (now : Int) (b : Booking) : Booking :=
  if due1h slots now b && reminderPropOk slots props b && sendOk b then
    { b with reminder_1h_sent := true }
  else b

/-- One pass of the 24-hour loop of `send_reminders`: the query selects the
due bookings, then each one with an existing property gets a dispatch
attempt and, **only on success**, its flag set.  Returns the updated store
and the list of bookings actually dispatched to. -/
def reminderPass24h (sendOk : Booking → Bool) (now : Int) (db : DB) : DB × List Booking :=
  ({ db with bookings :=
       db.bookings.map (applyReminder24h sendOk db.slots db.properties now) },
   (db.bookings.filter (due24h db.slots now)).filter
     (reminderPropOk db.slots db.properties))

/-- One pass of the 1-hour loop of `send_reminders`, analogous to
`reminderPass24h` but on `reminder_1h_sent`. -/
def reminderPass1h (sendOk : Booking → Bool) (now : Int) (db : DB) : DB × List Booking :=
  ({ db with bookings :=
       db.bookings.map (applyReminder1h sendOk db.slots db.properties now) },
   (db.bookings.filter (due1h db.slots now)).filter
     (reminderPropOk db.slots db.properties))

/-- `send_reminders` (scheduler.py lines 30–170): one wake of the background
scheduler — the 24-hour pass followed by the 1-hour pass on the same session,
committed at the end.  Result: updated store, bookings dispatched a 24-hour
reminder, bookings dispatched a 1-hour reminder. -/
def sendReminders (sendOk : Booking → Bool) (now : Int) (db : DB) :
    DB × List Booking × List Booking :=
  let p24 := reminderPass24h sendOk now db
  let p1 := reminderPass1h sendOk now p24.1
  (p1.1, p24.2, p1.2)

/-- Closed form of the bulk-generation loop: with a positive duration it
produces exactly `⌊(pend - cur) / dur⌋` contiguous intervals of length `dur`
starting at `cur`. -/
theorem genSlotTimes_eq_map (cur pend dur : Int) (hd : 0 < dur) :
    genSlotTimes cur pend dur =
      (List.range ((pend - cur).toNat / dur.toNat)).map
        (fun i : Nat => (cur + (i : Int) * dur, cur + ((i : Int) + 1) * dur)) := by
  induction cur, pend, dur using genSlotTimes.induct with
  | case1 cur pend dur h ih =>
    rw [genSlotTimes, dif_pos h]
    have hdn : dur.toNat ≤ (pend - cur).toNat := by omega
    have hd0 : 0 < dur.toNat := by omega
    rw [Nat.div_eq_sub_div hd0 hdn, List.range_succ_eq_map, List.map_cons, List.map_map]
    have hsub : (pend - cur).toNat - dur.toNat = (pend - (cur + dur)).toNat := by omega
    rw [ih hd, ← hsub]
    congr 1
    · norm_num
    · apply List.map_congr_left
      intro i _
      simp only [Function.comp_apply, Nat.succ_eq_add_one]
      push_cast
      rw [Prod.mk.injEq]
      constructor <;> ring
  | case2 cur pend dur h =>
    rw [genSlotTimes, dif_neg h]
    have : (pend - cur).toNat < dur.toNat := by omega
    rw [Nat.div_eq_of_lt this, List.range_zero, List.map_nil]

/-- C8: bulkCreate with slot_duration = 0 produces exactly one slot spanning
[time_start, time_end) on the given date; with slot_duration d > 0 it produces
exactly floor((time_end - time_start) / d) contiguous, non-overlapping slots
of length exactly d, the first starting at time_start, and discards any
partial remainder.  (`create_bulk_slots`, viewings.py lines 249–281; times in
seconds, durations in minutes as in the request schema.) -/
theorem C8_bulk_slot_generation (db : DB) (d : ViewingSlotBulkCreate)
    (hp : db.properties.contains d.property_id = true)
    (hts : d.time_start < d.time_end) :
    ∃ db' ids created,
      createBulkSlots db d = .ok (db', ids) ∧
      db'.slots = db.slots ++ created ∧
      (d.slot_duration_minutes = 0 →
        created.length = 1 ∧
        ∀ s ∈ created,
          s.start_time = d.base_date + 60 * (d.time_start : Int) ∧
          s.end_time = d.base_date + 60 * (d.time_end : Int)) ∧
      (0 < d.slot_duration_minutes →
        created.length = (d.time_end - d.time_start) / d.slot_duration_minutes ∧
        ∀ i, ∀ hi : i < created.length,
          (created.get ⟨i, hi⟩).start_time
            = d.base_date + 60 * (d.time_start : Int)
              + (i : Int) * (60 * (d.slot_duration_minutes : Int)) ∧
          (created.get ⟨i, hi⟩).end_time
            = (created.get ⟨i, hi⟩).start_time + 60 * (d.slot_duration_minutes : Int)) := by
  by_cases hdur : d.slot_duration_minutes = 0
  · simp only [createBulkSlots, hp, if_true, hdur, if_pos]
    refine ⟨_, _, _, rfl, rfl, ?_, ?_⟩
    · intro _
      simp [List.enum]
    · intro hlt
      omega
  · have hdpos : 0 < d.slot_duration_minutes := Nat.pos_of_ne_zero hdur
    simp only [createBulkSlots, hp, if_true, if_neg hdur]
    refine ⟨_, _, _, rfl, rfl, fun h0 => absurd h0 hdur, fun _ => ?_⟩
    have hgen := genSlotTimes_eq_map (d.base_date + 60 * (d.time_start : Int))
      (d.base_date + 60 * (d.time_end : Int)) (60 * (d.slot_duration_minutes : Int))
      (by positivity)
    have hlen : ((d.base_date + 60 * (d.time_end : Int)
        - (d.base_date + 60 * (d.time_start : Int))).toNat
          / (60 * (d.slot_duration_minutes : Int)).toNat)
        = (d.time_end - d.time_start) / d.slot_duration_minutes := by
      have h1 : (d.base_date + 60 * (d.time_end : Int)
          - (d.base_date + 60 * (d.time_start : Int))).toNat
            = 60 * (d.time_end - d.time_start) := by omega
      have h2 : (60 * (d.slot_duration_minutes : Int)).toNat
          = 60 * d.slot_duration_minutes := by omega
      rw [h1, h2, Nat.mul_div_mul_left _ _ (by norm_num)]
    rw [hgen, hlen]
    constructor
    · simp
    · intro i hi
      simp only [List.get_eq_getElem, List.getElem_map, List.getElem_enum,
        List.getElem_range]
      constructor <;> · push_cast
                        try ring

/-- Concrete store and request used to instantiate theorems: one property
(id 10), no slots/bookings/invitations yet. -/
def dbP : DB :=
  { properties := [10], applications := [], slots := [], bookings := [],
    invitations := [], nextId := 1 }

def bulkReq : ViewingSlotBulkCreate :=
  { property_id := 10, base_date := 0, time_start := 840, time_end := 1080,
    slot_duration_minutes := 30, slot_type := .group, access_type := .public,
    max_attendees := 5, notes := none }

/-- Witness for C8 at the spec's own example: 14:00–18:00 in 30-minute slots
(840 and 1080 minutes since midnight). -/
theorem C8_bulk_slot_generation_witness :
    dbP.properties.contains bulkReq.property_id = true ∧
    bulkReq.time_start < bulkReq.time_end ∧
    (∃ db' ids created,
      createBulkSlots dbP bulkReq = .ok (db', ids) ∧
      db'.slots = dbP.slots ++ created ∧
      (bulkReq.slot_duration_minutes = 0 →
        created.length = 1 ∧
        ∀ s ∈ created,
          s.start_time = bulkReq.base_date + 60 * (bulkReq.time_start : Int) ∧
          s.end_time = bulkReq.base_date + 60 * (bulkReq.time_end : Int)) ∧
      (0 < bulkReq.slot_duration_minutes →
        created.length
          = (bulkReq.time_end - bulkReq.time_start) / bulkReq.slot_duration_minutes ∧
        ∀ i, ∀ hi : i < created.length,
          (created.get ⟨i, hi⟩).start_time
            = bulkReq.base_date + 60 * (bulkReq.time_start : Int)
              + (i : Int) * (60 * (bulkReq.slot_duration_minutes : Int)) ∧
          (created.get ⟨i, hi⟩).end_time
            = (created.get ⟨i, hi⟩).start_time
              + 60 * (bulkReq.slot_duration_minutes : Int))) :=
  ⟨by decide, by decide, C8_bulk_slot_generation dbP bulkReq (by decide) (by decide)⟩

/-- C9: creating a slot (single or bulk) with slot_type = individual persists
max_attendees = 1 regardless of the requested value — silently clamped, not
rejected (`create_viewing_slot` lines 183–186, `create_bulk_slots` lines
244–247; the `ViewingSlotCreate` schema validator additionally clamps on the
single-create path, redundantly with the endpoint). -/
theorem C9_individual_slot_clamp (db : DB) (d : ViewingSlotCreate)
    (bd : ViewingSlotBulkCreate) :
    (d.slot_type = .individual →
      ∀ db' sid, createViewingSlot db d = .ok (db', sid) →
        ∃ created, db'.slots = db.slots ++ created ∧
          created ≠ [] ∧ ∀ s ∈ created, s.max_attendees = 1) ∧
    (bd.slot_type = .individual →
      ∀ db' ids, createBulkSlots db bd = .ok (db', ids) →
        ∃ created, db'.slots = db.slots ++ created ∧
          ∀ s ∈ created, s.max_attendees = 1) := by
  constructor
  · intro hind db' sid h
    simp only [createViewingSlot] at h
    split at h
    · simp only [Except.ok.injEq, Prod.mk.injEq] at h
      obtain ⟨hdb, -⟩ := h
      subst hdb
      refine ⟨_, rfl, by simp, ?_⟩
      intro s hs
      simp only [List.mem_singleton] at hs
      subst hs
      simp [hind]
    · exact absurd h (by simp)
  · intro hind db' ids h
    simp only [createBulkSlots] at h
    split at h
    · simp only [Except.ok.injEq, Prod.mk.injEq] at h
      obtain ⟨hdb, -⟩ := h
      subst hdb
      refine ⟨_, rfl, ?_⟩
      intro s hs
      simp only [List.mem_map] at hs
      obtain ⟨p, -, hp⟩ := hs
      subst hp
      simp [hind]
    · exact absurd h (by simp)

/-- Witness for C9: an individual slot requested with capacity 7 is persisted
with capacity 1, on both the single and the bulk path. -/
theorem C9_individual_slot_clamp_witness :
    (⟨10, 0, 3600, .individual, .public, 7, none⟩ : ViewingSlotCreate).slot_type
        = .individual ∧
    (∀ db' sid, createViewingSlot dbP ⟨10, 0, 3600, .individual, .public, 7, none⟩
        = .ok (db', sid) →
      ∃ created, db'.slots = dbP.slots ++ created ∧
        created ≠ [] ∧ ∀ s ∈ created, s.max_attendees = 1) ∧
    (∀ db' ids, createBulkSlots dbP
        ⟨10, 0, 840, 1080, 30, .individual, .public, 7, none⟩ = .ok (db', ids) →
      ∃ created, db'.slots = dbP.slots ++ created ∧
        ∀ s ∈ created, s.max_attendees = 1) :=
  ⟨rfl,
   (C9_individual_slot_clamp dbP ⟨10, 0, 3600, .individual, .public, 7, none⟩
      ⟨10, 0, 840, 1080, 30, .individual, .public, 7, none⟩).1 rfl,
   (C9_individual_slot_clamp dbP ⟨10, 0, 3600, .individual, .public, 7, none⟩
      ⟨10, 0, 840, 1080, 30, .individual, .public, 7, none⟩).2 rfl⟩

/-- C10: update writes max_attendees verbatim for 1 ≤ k ≤ 100 (the schema
bound), with no clamp even when the slot is or becomes individual
(`update_viewing_slot` lines 372–386 applies `setattr` per set field;
`ViewingSlotUpdate` has no `validate_max_attendees` validator). -/
theorem C10_update_max_verbatim (db : DB) (sid : Nat) (u : ViewingSlotUpdate)
    (k : Nat) (hk : u.max_attendees = some k) (_hk1 : 1 ≤ k) (_hk100 : k ≤ 100)
    (slot : ViewingSlot) (hfind : findSlot db sid = some slot) :
    ∃ db', updateViewingSlot db sid u = .ok (db', ()) ∧
      ∀ s' ∈ db'.slots, s'.id = sid → s'.max_attendees = k := by
  simp only [updateViewingSlot, hfind]
  refine ⟨_, rfl, ?_⟩
  intro s' hs' hid
  simp only [List.mem_map] at hs'
  obtain ⟨x, _, hx⟩ := hs'
  by_cases hxid : x.id == sid
  · rw [← hx]
    simp [hxid, applyUpdate, hk]
  · rw [← hx] at hid
    simp [hxid] at hid
    simp [hid] at hxid

/-- Inversion of a successful `createViewingSlot`: one slot with the fresh id
is appended, nothing else changes. -/
theorem createViewingSlot_ok {db db' : DB} {d : ViewingSlotCreate} {r : Nat}
    (h : createViewingSlot db d = .ok (db', r)) :
    ∃ snew : ViewingSlot, snew.id = db.nextId ∧
      db'.slots = db.slots ++ [snew] ∧ db'.bookings = db.bookings ∧
      db'.invitations = db.invitations ∧ db'.nextId = db.nextId + 1 := by
  simp only [createViewingSlot] at h
  split at h
  · simp only [Except.ok.injEq, Prod.mk.injEq] at h
    obtain ⟨hdb, -⟩ := h
    subst hdb
    exact ⟨_, rfl, rfl, rfl, rfl, rfl⟩
  · exact absurd h (by simp)

/-- Inversion of a successful `createBulkSlots`: a batch of slots whose ids
are exactly the fresh range `[nextId, nextId + batch)` is appended, nothing
else changes. -/
theorem createBulkSlots_ok {db db' : DB} {d : ViewingSlotBulkCreate} {r : List Nat}
    (h : createBulkSlots db d = .ok (db', r)) :
    ∃ news : List ViewingSlot,
      db'.slots = db.slots ++ news ∧ db'.bookings = db.bookings ∧
      db'.invitations = db.invitations ∧ db'.nextId = db.nextId + news.length ∧
      news.map (fun s => s.id) = (List.range news.length).map (fun i => db.nextId + i) := by
  simp only [createBulkSlots] at h
  split at h
  · simp only [Except.ok.injEq, Prod.mk.injEq] at h
    obtain ⟨hdb, -⟩ := h
    subst hdb
    refine ⟨_, rfl, rfl, rfl, by simp, ?_⟩
    have hids : ∀ (ts : List (Int × Int)) (f : (Nat × Int × Int) → ViewingSlot),
        (∀ q, (f q).id = db.nextId + q.1) →
        (ts.enum.map f).map (fun s => s.id)
          = (List.range ts.length).map (fun i => db.nextId + i) := by
      intro ts f hf
      rw [List.map_map]
      have : (fun s => ViewingSlot.id s) ∘ f = (fun q => db.nextId + q.1) := by
        funext q
        exact hf q
      rw [this]
      rw [show (fun q : Nat × Int × Int => db.nextId + q.1)
            = (fun i => db.nextId + i) ∘ Prod.fst from rfl]
      rw [← List.map_map, List.enum_map_fst]
    rw [hids _ _ (fun q => rfl)]
    simp
  · exact absurd h (by simp)

/-- Inversion of a successful `updateViewingSlot`: the matching slots are
rewritten in place by `applyUpdate`, nothing else changes. -/
theorem updateViewingSlot_ok {db db' : DB} {sid : Nat} {u : ViewingSlotUpdate}
    (h : updateViewingSlot db sid u = .ok (db', ())) :
    (∃ slot, findSlot db sid = some slot) ∧
    db'.slots = db.slots.map (fun x => if x.id == sid then applyUpdate x u else x) ∧
    db'.bookings = db.bookings ∧ db'.invitations = db.invitations ∧
    db'.nextId = db.nextId := by
  simp only [updateViewingSlot] at h
  cases hfind : findSlot db sid with
  | none => rw [hfind] at h; exact absurd h (by simp)
  | some slot =>
    rw [hfind] at h
    simp only [Except.ok.injEq, Prod.mk.injEq] at h
    obtain ⟨hdb, -⟩ := h
    subst hdb
    exact ⟨⟨slot, rfl⟩, rfl, rfl, rfl, rfl⟩

/-- Inversion of a successful `bookViewingSlot`: the slot was found, public,
below capacity and not in the past, there was no uncancelled booking for the
e-mail, and exactly one fresh confirmed booking is appended. -/
theorem bookViewingSlot_ok {db db' : DB} {now : Int} {sid : Nat} {d : BookingCreate}
    {r : Nat} (h : bookViewingSlot now sid d db = .ok (db', r)) :
    ∃ slot, findSlot db sid = some slot ∧ slot.access_type = .public ∧
      activeCount db sid < slot.max_attendees ∧
      (findUncancelled db sid d.email).isSome = false ∧
      ¬ slot.start_time < now ∧
      db'.bookings = db.bookings ++ [mkDirectBooking db.nextId sid d] ∧
      db'.slots = db.slots ∧ db'.invitations = db.invitations ∧
      db'.nextId = db.nextId + 1 ∧ r = db.nextId := by
  simp only [bookViewingSlot] at h
  cases hfind : findSlot db sid with
  | none => rw [hfind] at h; exact absurd h (by simp)
  | some slot =>
    rw [hfind] at h
    simp only at h
    split at h
    · exact absurd h (by simp)
    · split at h
      · exact absurd h (by simp)
      · split at h
        · exact absurd h (by simp)
        · split at h
          · exact absurd h (by simp)
          · simp only [Except.ok.injEq, Prod.mk.injEq] at h
            obtain ⟨hdb, hr⟩ := h
            subst hdb
            subst hr
            rename_i hacc hcap hdup hpast
            exact ⟨slot, rfl, by simpa using hacc, by omega,
              by simpa using hdup, hpast, rfl, rfl, rfl, rfl, rfl⟩

/-- Inversion of a successful `inviteApplicant`: one pending invitation is
appended, slots and bookings are untouched. -/
theorem inviteApplicant_ok {db db' : DB} {sid appId r : Nat}
    (h : inviteApplicant db sid appId = .ok (db', r)) :
    db'.slots = db.slots ∧ db'.bookings = db.bookings ∧
    db'.nextId = db.nextId + 1 := by
  simp only [inviteApplicant] at h
  cases hfind : findSlot db sid with
  | none => rw [hfind] at h; exact absurd h (by simp)
  | some slot =>
    rw [hfind] at h
    simp only at h
    cases happ : db.applications.find?
        (fun a => a.id == appId && a.property_id == slot.property_id) with
    | none => rw [happ] at h; exact absurd h (by simp)
    | some app =>
      rw [happ] at h
      simp only at h
      split at h
      · exact absurd h (by simp)
      · simp only [Except.ok.injEq, Prod.mk.injEq] at h
        obtain ⟨hdb, -⟩ := h
        subst hdb
        exact ⟨rfl, rfl, rfl⟩

/-- Inversion of a successful `respondToInvitation`: slots are untouched; a
decline changes no booking, an accept appends one fresh confirmed booking to a
slot that was strictly below capacity. -/
theorem respondToInvitation_ok {db db' : DB} {now : Int} {token : Nat}
    {c : RespondChoice} {r : Option Nat}
    (h : respondToInvitation now token c db = .ok (db', r)) :
    db'.slots = db.slots ∧
    ((db'.bookings = db.bookings ∧ db'.nextId = db.nextId) ∨
      ∃ slot, slot ∈ db.slots ∧ activeCount db slot.id < slot.max_attendees ∧
        ∃ bnew : Booking, bnew.slot_id = slot.id ∧
          db'.bookings = db.bookings ++ [bnew] ∧ db'.nextId = db.nextId + 1) := by
  simp only [respondToInvitation] at h
  cases hinv : db.invitations.find? (fun i => i.invitation_token == token) with
  | none => rw [hinv] at h; exact absurd h (by simp)
  | some inv =>
    rw [hinv] at h
    simp only at h
    split at h
    · exact absurd h (by simp)
    · cases hslot : findSlot db inv.slot_id with
      | none => rw [hslot] at h; exact absurd h (by simp)
      | some slot =>
        rw [hslot] at h
        simp only at h
        split at h
        · exact absurd h (by simp)
        · cases happ : db.applications.find? (fun a => a.id == inv.application_id) with
          | none => rw [happ] at h; exact absurd h (by simp)
          | some app =>
            rw [happ] at h
            simp only at h
            cases c with
            | decline =>
              dsimp only at h
              simp only [Except.ok.injEq, Prod.mk.injEq] at h
              obtain ⟨hdb, -⟩ := h
              subst hdb
              exact ⟨rfl, .inl ⟨rfl, rfl⟩⟩
            | accept =>
              dsimp only at h
              split at h
              · exact absurd h (by simp)
              · simp only [Except.ok.injEq, Prod.mk.injEq] at h
                obtain ⟨hdb, -⟩ := h
                subst hdb
                rename_i hcap
                refine ⟨rfl, .inr ⟨slot, ?_, by omega, _, rfl, rfl, rfl⟩⟩
                have := List.mem_of_find?_eq_some hslot
                exact this

/-- Inversion of a successful `cancelBooking`: the matching booking rows get
`cancelled_at` set and `confirmed` cleared, nothing else changes. -/
theorem cancelBooking_ok {db db' : DB} {now : Int} {sid bid : Nat} {r : Int}
    (h : cancelBooking now sid bid db = .ok (db', r)) :
    db'.slots = db.slots ∧ db'.invitations = db.invitations ∧
    db'.nextId = db.nextId ∧
    db'.bookings = db.bookings.map (fun x =>
      if x.id == bid && x.slot_id == sid then
        { x with cancelled_at := some now, confirmed := false }
      else x) := by
  simp only [cancelBooking] at h
  cases hfind : db.bookings.find? (fun b => b.id == bid && b.slot_id == sid) with
  | none => rw [hfind] at h; exact absurd h (by simp)
  | some b =>
    rw [hfind] at h
    simp only at h
    split at h
    · exact absurd h (by simp)
    · cases hslot : findSlot db sid with
      | none => rw [hslot] at h; exact absurd h (by simp)
      | some slot =>
        rw [hslot] at h
        simp only at h
        split at h
        · exact absurd h (by simp)
        · simp only [Except.ok.injEq, Prod.mk.injEq] at h
          obtain ⟨hdb, -⟩ := h
          subst hdb
          exact ⟨rfl, rfl, rfl, rfl⟩

/-- Counting under a pointwise-weakening map can only shrink. -/
theorem countP_map_le {α : Type} (l : List α) (f : α → α) (p : α → Bool)
    (h : ∀ x ∈ l, p (f x) = true → p x = true) :
    (l.map f).countP p ≤ l.countP p := by
  induction l with
  | nil => simp
  | cons a t ih =>
    have hfa : p (f a) = true → p a = true := h a (by simp)
    have ht := ih (fun x hx hp => h x (by simp [hx]) hp)
    simp only [List.map_cons, List.countP_cons]
    by_cases hpa : p (f a) = true
    · rw [if_pos hpa, if_pos (hfa hpa)]
      omega
    · rw [if_neg hpa]
      split <;> omega

/-- The capacity invariant of §3 of the spec: for every slot, the number of
confirmed, uncancelled bookings does not exceed `max_attendees`. -/
def CapInv (db : DB) : Prop :=
  ∀ s ∈ db.slots, activeCount db s.id ≤ s.max_attendees

/-- Structural well-formedness carried through the induction: every slot id is
below the freshness counter and unique, every booking points below the
counter, and the capacity invariant holds. -/
def WF (db : DB) : Prop :=
  (∀ s ∈ db.slots, s.id < db.nextId) ∧
  (db.slots.map (fun s => s.id)).Nodup ∧
  (∀ b ∈ db.bookings, b.slot_id < db.nextId) ∧
  CapInv db

/-- An initial store of the subsystem: no slots, bookings or invitations yet
(properties and applications are owned by external CRUD and arbitrary). -/
def InitDB (db : DB) : Prop :=
  db.slots = [] ∧ db.bookings = [] ∧ db.invitations = []

/-- One successful operation of the subsystem, with the pydantic schema
bounds of `app/schemas/viewing.py` as side conditions.  With
`restricted = true`, capacity edits are additionally required not to drop
`max_attendees` below the slot's current active-booking count (this is NOT
checked by the code; it is the hypothesis under which the capacity invariant
is provable). -/
inductive Step (restricted : Bool) : DB → DB → Prop where
  | create (db db' : DB) (d : ViewingSlotCreate) (r : Nat)
      (hval : d.start_time < d.end_time) (hmax1 : 1 ≤ d.max_attendees)
      (hmax100 : d.max_attendees ≤ 100)
      (h : createViewingSlot db d = .ok (db', r)) : Step restricted db db'
  | bulk (db db' : DB) (d : ViewingSlotBulkCreate) (r : List Nat)
      (hval : d.time_start < d.time_end) (hmax1 : 1 ≤ d.max_attendees)
      (hmax100 : d.max_attendees ≤ 100) (hdur : d.slot_duration_minutes ≤ 480)
      (h : createBulkSlots db d = .ok (db', r)) : Step restricted db db'
  | update (db db' : DB) (sid : Nat) (u : ViewingSlotUpdate)
      (hmax : ∀ k, u.max_attendees = some k → 1 ≤ k ∧ k ≤ 100)
      (hres : restricted = true →
        ∀ k, u.max_attendees = some k → activeCount db sid ≤ k)
      (h : updateViewingSlot db sid u = .ok (db', ())) : Step restricted db db'
  | book (db db' : DB) (now : Int) (sid : Nat) (d : BookingCreate) (r : Nat)
      (h : bookViewingSlot now sid d db = .ok (db', r)) : Step restricted db db'
  | invite (db db' : DB) (sid appId r : Nat)
      (h : inviteApplicant db sid appId = .ok (db', r)) : Step restricted db db'
  | respond (db db' : DB) (now : Int) (token : Nat) (c : RespondChoice)
      (r : Option Nat)
      (h : respondToInvitation now token c db = .ok (db', r)) : Step restricted db db'
  | cancel (db db' : DB) (now : Int) (sid bid : Nat) (r : Int)
      (h : cancelBooking now sid bid db = .ok (db', r)) : Step restricted db db'

/-- States reachable from an initial store by successful subsystem
operations (failed requests leave the store unchanged and are absorbed). -/
inductive Reachable (restricted : Bool) : DB → Prop where
  | init (db : DB) (h : InitDB db) : Reachable restricted db
  | step (db db' : DB) (hr : Reachable restricted db)
      (hs : Step restricted db db') : Reachable restricted db'

/-- Every successful operation of the restricted system preserves
well-formedness, in particular the capacity invariant: direct booking and
invitation acceptance are guarded by the live count, cancellation only shrinks
counts, fresh slots start with count zero, and restricted updates never drop
`max_attendees` below the current count. -/
theorem wf_step {db db' : DB} (hwf : WF db) (hs : Step true db db') : WF db' := by
  obtain ⟨hslt, hnd, hblt, hcap⟩ := hwf
  cases hs with
  | create d r hval hm1 hm100 h =>
    obtain ⟨snew, hid, hsl, hbk, hinvs, hnx⟩ := createViewingSlot_ok h
    refine ⟨?_, ?_, ?_, ?_⟩
    · intro s hsmem
      rw [hsl] at hsmem
      rcases List.mem_append.1 hsmem with hmem | hmem
      · have := hslt s hmem
        omega
      · simp only [List.mem_singleton] at hmem
        subst hmem
        omega
    · rw [hsl, List.map_append]
      refine List.Nodup.append hnd (by simp) ?_
      intro x hx hx2
      simp only [List.map_cons, List.map_nil, List.mem_singleton] at hx2
      subst hx2
      simp only [List.mem_map] at hx
      obtain ⟨s, hsm, hsid⟩ := hx
      have := hslt s hsm
      omega
    · intro b hb
      rw [hbk] at hb
      have := hblt b hb
      omega
    · intro s hsmem
      have hac : ∀ x, activeCount db' x = activeCount db x := by
        intro x
        simp only [activeCount, hbk]
      rw [hsl] at hsmem
      rcases List.mem_append.1 hsmem with hmem | hmem
      · rw [hac]
        exact hcap s hmem
      · simp only [List.mem_singleton] at hmem
        subst hmem
        rw [hac]
        have hzero : activeCount db s.id = 0 := by
          rw [activeCount, List.countP_eq_zero]
          intro b hb
          have hlt := hblt b hb
          simp only [Bool.and_eq_true, beq_iff_eq]
          rintro ⟨⟨h1, -⟩, -⟩
          omega
        omega
  | bulk d r hval hm1 hm100 hdur h =>
    obtain ⟨news, hsl, hbk, hinvs, hnx, hids⟩ := createBulkSlots_ok h
    have hnewid : ∀ s ∈ news, db.nextId ≤ s.id ∧ s.id < db.nextId + news.length := by
      intro s hs
      have hmm : s.id ∈ news.map (fun s => s.id) := List.mem_map_of_mem _ hs
      rw [hids] at hmm
      simp only [List.mem_map, List.mem_range] at hmm
      obtain ⟨i, hi, hie⟩ := hmm
      omega
    refine ⟨?_, ?_, ?_, ?_⟩
    · intro s hsmem
      rw [hsl] at hsmem
      rcases List.mem_append.1 hsmem with hmem | hmem
      · have := hslt s hmem
        omega
      · have := hnewid s hmem
        omega
    · rw [hsl, List.map_append]
      refine List.Nodup.append hnd ?_ ?_
      · rw [hids]
        exact (List.nodup_range _).map (fun a b hab => by omega)
      · intro x hx hx2
        simp only [List.mem_map] at hx
        obtain ⟨s, hsm, hsid⟩ := hx
        have h1 := hslt s hsm
        simp only [List.mem_map] at hx2
        obtain ⟨s2, hs2m, hs2id⟩ := hx2
        have h2 := hnewid s2 hs2m
        omega
    · intro b hb
      rw [hbk] at hb
      have := hblt b hb
      omega
    · intro s hsmem
      have hac : ∀ x, activeCount db' x = activeCount db x := by
        intro x
        simp only [activeCount, hbk]
      rw [hsl] at hsmem
      rcases List.mem_append.1 hsmem with hmem | hmem
      · rw [hac]
        exact hcap s hmem
      · rw [hac]
        have hge := (hnewid s hmem).1
        have hzero : activeCount db s.id = 0 := by
          rw [activeCount, List.countP_eq_zero]
          intro b hb
          have hlt := hblt b hb
          simp only [Bool.and_eq_true, beq_iff_eq]
          rintro ⟨⟨h1, -⟩, -⟩
          omega
        omega
  | update sid u hmax hres h =>
    obtain ⟨⟨slot0, hf0⟩, hsl, hbk, hinvs, hnx⟩ := updateViewingSlot_ok h
    have hfid : ∀ x : ViewingSlot,
        (if x.id == sid then applyUpdate x u else x).id = x.id := by
      intro x
      by_cases hx : x.id == sid
      · simp [hx, applyUpdate]
      · simp [hx]
    refine ⟨?_, ?_, ?_, ?_⟩
    · intro s hsmem
      rw [hsl] at hsmem
      simp only [List.mem_map] at hsmem
      obtain ⟨x, hxm, hxe⟩ := hsmem
      subst hxe
      rw [hfid, hnx]
      exact hslt x hxm
    · rw [hsl, List.map_map]
      have hco : ((fun s : ViewingSlot => s.id)
          ∘ fun x => if x.id == sid then applyUpdate x u else x)
            = fun s : ViewingSlot => s.id := funext hfid
      rw [hco]
      exact hnd
    · intro b hb
      rw [hbk] at hb
      rw [hnx]
      exact hblt b hb
    · intro s hsmem
      have hac : ∀ x, activeCount db' x = activeCount db x := by
        intro x
        simp only [activeCount, hbk]
      rw [hsl] at hsmem
      simp only [List.mem_map] at hsmem
      obtain ⟨x, hxm, hxe⟩ := hsmem
      subst hxe
      rw [hac, hfid]
      by_cases hx : x.id == sid
      · simp only [hx, if_true]
        cases hu : u.max_attendees with
        | none =>
          have hm : (applyUpdate x u).max_attendees = x.max_attendees := by
            simp [applyUpdate, hu]
          rw [hm]
          exact hcap x hxm
        | some k =>
          have hm : (applyUpdate x u).max_attendees = k := by
            simp [applyUpdate, hu]
          rw [hm]
          have hxid : x.id = sid := by simpa using hx
          rw [hxid]
          exact hres rfl k hu
      · simp only [hx, if_false]
        exact hcap x hxm
  | book now sid d r h =>
    obtain ⟨slot, hfind, hpub, hcapg, hdup, hpast, hbk, hsl, hinvs, hnx, hr⟩ :=
      bookViewingSlot_ok h
    have hsmem0 : slot ∈ db.slots := List.mem_of_find?_eq_some hfind
    have hsid0 : slot.id = sid := by
      have := List.find?_some hfind
      simpa using this
    refine ⟨?_, ?_, ?_, ?_⟩
    · intro s hs
      rw [hsl] at hs
      have := hslt s hs
      omega
    · rw [hsl]
      exact hnd
    · intro b hb
      rw [hbk] at hb
      rcases List.mem_append.1 hb with hm | hm
      · have := hblt b hm
        omega
      · simp only [List.mem_singleton] at hm
        subst hm
        have h1 := hslt slot hsmem0
        rw [hnx]
        simp only [mkDirectBooking]
        omega
    · intro s hs
      rw [hsl] at hs
      have hcount : activeCount db' s.id
          = activeCount db s.id + (if sid = s.id then 1 else 0) := by
        rw [activeCount, activeCount, hbk, List.countP_append]
        congr 1
        simp only [mkDirectBooking, List.countP_cons, List.countP_nil]
        by_cases hx : sid = s.id
        · simp [hx]
        · simp [hx, Ne.symm hx]
      by_cases hx : sid = s.id
      · have hseq : slot = s :=
          List.inj_on_of_nodup_map hnd hsmem0 hs (by omega)
        rw [hcount, if_pos hx]
        rw [hx] at hcapg
        rw [hseq] at hcapg
        omega
      · rw [hcount, if_neg hx]
        simpa using hcap s hs
  | invite sid appId r h =>
    obtain ⟨hsl, hbk, hnx⟩ := inviteApplicant_ok h
    refine ⟨?_, ?_, ?_, ?_⟩
    · intro s hs
      rw [hsl] at hs
      have := hslt s hs
      omega
    · rw [hsl]
      exact hnd
    · intro b hb
      rw [hbk] at hb
      have := hblt b hb
      omega
    · intro s hs
      rw [hsl] at hs
      have hac : ∀ x, activeCount db' x = activeCount db x := by
        intro x
        simp only [activeCount, hbk]
      rw [hac]
      exact hcap s hs
  | respond now token c r h =>
    obtain ⟨hsl, hcases⟩ := respondToInvitation_ok h
    rcases hcases with ⟨hbk, hnx⟩ | ⟨slot, hsm, hcapg, bnew, hbsid, hbk, hnx⟩
    · refine ⟨?_, ?_, ?_, ?_⟩
      · intro s hs
        rw [hsl] at hs
        rw [hnx]
        exact hslt s hs
      · rw [hsl]
        exact hnd
      · intro b hb
        rw [hbk] at hb
        rw [hnx]
        exact hblt b hb
      · intro s hs
        rw [hsl] at hs
        have hac : ∀ x, activeCount db' x = activeCount db x := by
          intro x
          simp only [activeCount, hbk]
        rw [hac]
        exact hcap s hs
    · refine ⟨?_, ?_, ?_, ?_⟩
      · intro s hs
        rw [hsl] at hs
        have := hslt s hs
        omega
      · rw [hsl]
        exact hnd
      · intro b hb
        rw [hbk] at hb
        rcases List.mem_append.1 hb with hm | hm
        · have := hblt b hm
          omega
        · simp only [List.mem_singleton] at hm
          subst hm
          have h1 := hslt slot hsm
          rw [hnx, hbsid]
          omega
      · intro s hs
        rw [hsl] at hs
        have hcount : activeCount db' s.id
            ≤ activeCount db s.id + (if slot.id = s.id then 1 else 0) := by
          rw [activeCount, activeCount, hbk, List.countP_append]
          have hone : List.countP
              (fun b => b.slot_id == s.id && b.confirmed && b.cancelled_at.isNone)
              [bnew] ≤ if slot.id = s.id then 1 else 0 := by
            by_cases hx : slot.id = s.id
            · rw [if_pos hx]
              have hle := List.countP_le_length
                (p := fun b : Booking =>
                  b.slot_id == s.id && b.confirmed && b.cancelled_at.isNone)
                (l := [bnew])
              simpa using hle
            · rw [if_neg hx]
              have hb : (bnew.slot_id == s.id) = false := by
                simp [hbsid, hx]
              simp [List.countP_cons, List.countP_nil, hb]
          omega
        by_cases hx : slot.id = s.id
        · have hseq : slot = s :=
            List.inj_on_of_nodup_map hnd hsm hs hx
          rw [if_pos hx] at hcount
          rw [hx] at hcapg
          rw [hseq] at hcapg
          omega
        · rw [if_neg hx] at hcount
          have := hcap s hs
          omega
  | cancel now sid bid r h =>
    obtain ⟨hsl, hinvs, hnx, hbk⟩ := cancelBooking_ok h
    refine ⟨?_, ?_, ?_, ?_⟩
    · intro s hs
      rw [hsl] at hs
      rw [hnx]
      exact hslt s hs
    · rw [hsl]
      exact hnd
    · intro b hb
      rw [hbk] at hb
      simp only [List.mem_map] at hb
      obtain ⟨x, hxm, hxe⟩ := hb
      have hx1 := hblt x hxm
      have hpres : b.slot_id = x.slot_id := by
        rw [← hxe]
        by_cases hm : x.id == bid && x.slot_id == sid
        · simp [hm]
        · simp [hm]
      rw [hnx, hpres]
      exact hx1
    · intro s hs
      rw [hsl] at hs
      have hle : activeCount db' s.id ≤ activeCount db s.id := by
        rw [activeCount, activeCount, hbk]
        apply countP_map_le
        intro x hx hp
        by_cases hm : x.id == bid && x.slot_id == sid
        · rw [if_pos hm] at hp
          simp at hp
        · rw [if_neg hm] at hp
          exact hp
      have := hcap s hs
      omega

/-- Well-formedness (hence the capacity invariant) holds in every state
reachable under the restricted step relation. -/
theorem reachable_wf {db : DB} (h : Reachable true db) : WF db := by
  induction h with
  | init db h =>
    obtain ⟨hs, hb, hi⟩ := h
    refine ⟨?_, ?_, ?_, ?_⟩
    · intro s hsm
      rw [hs] at hsm
      exact absurd hsm (List.not_mem_nil s)
    · rw [hs]
      exact List.nodup_nil
    · intro b hbm
      rw [hb] at hbm
      exact absurd hbm (List.not_mem_nil b)
    · intro s hsm
      rw [hs] at hsm
      exact absurd hsm (List.not_mem_nil s)
  | step db db' hr hs ih => exact wf_step ih hs

/-- The slot of the C1 trace with capacity `m`: created with capacity 2, later
updated down to 1. -/
def c1Slot (m : Nat) : ViewingSlot :=
  ⟨1, 10, 10000, 13600, .group, .public, m, none⟩

/-- A confirmed direct booking of the C1 trace. -/
def c1Booking (i : Nat) (em : String) : Booking :=
  ⟨i, 1, "Ana", "Meier", em, none, true, none, none, false, false, none⟩

def c1db1 : DB := ⟨[10], [], [c1Slot 2], [], [], 2⟩
def c1db2 : DB := ⟨[10], [], [c1Slot 2], [c1Booking 2 "a@x.de"], [], 3⟩
def c1db3 : DB := ⟨[10], [], [c1Slot 2], [c1Booking 2 "a@x.de", c1Booking 3 "b@x.de"], [], 4⟩
def c1db4 : DB := ⟨[10], [], [c1Slot 1], [c1Booking 2 "a@x.de", c1Booking 3 "b@x.de"], [], 4⟩

/-- Trace prefix: create a public group slot with capacity 2 and book it once.
(Valid under both the restricted and the unrestricted step relation.) -/
theorem c1_reach2 (b : Bool) : Reachable b c1db2 :=
  .step c1db1 c1db2
    (.step dbP c1db1 (.init dbP ⟨rfl, rfl, rfl⟩)
      (.create dbP c1db1 ⟨10, 10000, 13600, .group, .public, 2, none⟩ 1
        (by decide) (by decide) (by decide) rfl))
    (.book c1db1 c1db2 0 1 ⟨"Ana", "Meier", "a@x.de", none, none⟩ 2 rfl)

/-- The trace continued: a second direct booking with a different e-mail
fills the slot. -/
theorem c1_reach3 (b : Bool) : Reachable b c1db3 :=
  .step c1db2 c1db3 (c1_reach2 b)
    (.book c1db2 c1db3 0 1 ⟨"Ana", "Meier", "b@x.de", none, none⟩ 3 rfl)

/-- C1 counterexample: the claim quantifies over sequences that include slot
updates, but `update_viewing_slot` writes a smaller `max_attendees` without
re-checking existing bookings (viewings.py lines 372–386), so a full slot
updated from capacity 2 down to 1 is a reachable state with two active
bookings on a capacity-1 slot. -/
theorem C1_capacity_invariant_counterexample :
    Reachable false c1db4 ∧
    ¬ (∀ s ∈ c1db4.slots, activeCount c1db4 s.id ≤ s.max_attendees) :=
  ⟨.step c1db3 c1db4 (c1_reach3 false)
      (.update c1db3 c1db4 1 { max_attendees := some 1 }
        (by intro k hk; simp at hk; omega)
        (fun hcon => absurd hcon (by decide))
        rfl),
   by decide⟩

/-- C1 (amended): for every reachable state of the subsystem in which every
update that sets `max_attendees` keeps it at or above the slot's current
active-booking count, no slot's count of bookings with `confirmed = true` and
`cancelled_at = null` exceeds its `max_attendees`.  (The restriction on
updates is forced by `C1_capacity_invariant_counterexample`; slot creation,
bulk creation, direct booking, invitation acceptance and cancellation need no
restriction.) -/
theorem C1_capacity_invariant_amended (db : DB) (h : Reachable true db) :
    ∀ s ∈ db.slots, activeCount db s.id ≤ s.max_attendees :=
  (reachable_wf h).2.2.2

/-- Witness for amended C1 on the concrete two-booking trace. -/
theorem C1_capacity_invariant_amended_witness :
    Reachable true c1db3 ∧ activeCount c1db3 (c1Slot 2).id ≤ (c1Slot 2).max_attendees :=
  ⟨c1_reach3 true,
   C1_capacity_invariant_amended c1db3 (c1_reach3 true) (c1Slot 2) (by decide)⟩

/-- Number of active (confirmed, uncancelled) bookings a (slot, email) pair
holds — the quantity the spec's uniqueness invariant bounds by one. -/
def pairActiveCount (db : DB) (sid : Nat) (email : String) : Nat :=
  db.bookings.countP (fun b =>
    b.slot_id == sid && b.email == email && b.confirmed && b.cancelled_at.isNone)

def c2App : Application := ⟨5, 10, "Ana", "Meier", "a@x.de", none⟩
def c2Slot : ViewingSlot := ⟨6, 10, 10000, 13600, .group, .public, 2, none⟩
def c2db0 : DB := ⟨[10], [c2App], [], [], [], 6⟩
def c2db1 : DB := ⟨[10], [c2App], [c2Slot], [], [], 7⟩
def c2db2 : DB := ⟨[10], [c2App], [c2Slot], [], [⟨7, 6, 5, .pending, none, 7⟩], 8⟩
def c2db3 : DB :=
  ⟨[10], [c2App], [c2Slot],
   [⟨8, 6, "Ana", "Meier", "a@x.de", none, true, none, none, false, false, none⟩],
   [⟨7, 6, 5, .pending, none, 7⟩], 9⟩
def c2db4 : DB :=
  ⟨[10], [c2App], [c2Slot],
   [⟨8, 6, "Ana", "Meier", "a@x.de", none, true, none, none, false, false, none⟩,
    ⟨9, 6, "Ana", "Meier", "a@x.de", none, true, some 5, some 7, false, false, none⟩],
   [⟨7, 6, 5, .accepted, some 0, 7⟩], 10⟩

/-- C2 counterexample: invite the applicant to a public capacity-2 slot, let
the applicant book directly with the same e-mail, then accept the invitation —
`respond_to_invitation` (viewings.py lines 1099–1128) checks capacity but
never looks for an existing booking with the applicant's e-mail, so the
(slot, email) pair ends up with two active bookings in a reachable state. -/
theorem C2_no_double_booking_counterexample :
    Reachable false c2db4 ∧ 2 ≤ pairActiveCount c2db4 6 "a@x.de" :=
  ⟨.step c2db3 c2db4
      (.step c2db2 c2db3
        (.step c2db1 c2db2
          (.step c2db0 c2db1 (.init c2db0 ⟨rfl, rfl, rfl⟩)
            (.create c2db0 c2db1 ⟨10, 10000, 13600, .group, .public, 2, none⟩ 6
              (by decide) (by decide) (by decide) rfl))
          (.invite c2db1 c2db2 6 5 7 rfl))
        (.book c2db2 c2db3 0 6 ⟨"Ana", "Meier", "a@x.de", none, none⟩ 8 rfl))
      (.respond c2db3 c2db4 0 7 .accept (some 9) rfl),
   by decide⟩

/-- C2 (amended): a direct `book()` on a (slot, email) pair that already holds
an uncancelled booking always fails and creates nothing, but the error kind
depends on the check order of `book_viewing_slot` (capacity is tested before
the duplicate e-mail, lines 589–613): `Conflict` ("bereits gebucht") when the
slot still has spare capacity, `CapacityExceeded` when it is full.  Invitation
acceptance performs no per-e-mail check at all
(`C2_no_double_booking_counterexample`), so the at-most-one-active-booking
invariant can be broken through that path. -/
theorem C2_direct_book_uniqueness (db : DB) (now : Int) (sid : Nat)
    (d : BookingCreate) (slot : ViewingSlot) (hs : findSlot db sid = some slot)
    (hpub : slot.access_type = .public)
    (ex : Booking) (hex : ex ∈ db.bookings) (hsid : ex.slot_id = sid)
    (hemail : ex.email = d.email) (hunc : ex.cancelled_at = none) :
    (activeCount db sid < slot.max_attendees →
      bookViewingSlot now sid d db = .error errAlreadyBooked) ∧
    (slot.max_attendees ≤ activeCount db sid →
      bookViewingSlot now sid d db = .error errNoSpots) := by
  have hdup : (findUncancelled db sid d.email).isSome = true := by
    rw [findUncancelled, List.find?_isSome]
    exact ⟨ex, hex, by simp [hsid, hemail, hunc]⟩
  simp only [bookViewingSlot, hs]
  constructor
  · intro hlt
    rw [if_neg (by simp [hpub]), if_neg (by omega), if_pos hdup]
  · intro hge
    rw [if_neg (by simp [hpub]), if_pos hge]

/-- Witness for amended C2: on the one-booking slot of the C1 trace, a second
direct booking with the same e-mail is rejected as "bereits gebucht". -/
theorem C2_direct_book_uniqueness_witness :
    findSlot c1db2 1 = some (c1Slot 2) ∧
    (c1Slot 2).access_type = .public ∧
    c1Booking 2 "a@x.de" ∈ c1db2.bookings ∧
    (c1Booking 2 "a@x.de").slot_id = 1 ∧
    (c1Booking 2 "a@x.de").email = "a@x.de" ∧
    (c1Booking 2 "a@x.de").cancelled_at = none ∧
    activeCount c1db2 1 < (c1Slot 2).max_attendees ∧
    bookViewingSlot 0 1 ⟨"Eva", "Kurz", "a@x.de", none, none⟩ c1db2
      = .error errAlreadyBooked :=
  ⟨rfl, rfl, by decide, rfl, rfl, rfl, by decide,
   (C2_direct_book_uniqueness c1db2 0 1 ⟨"Eva", "Kurz", "a@x.de", none, none⟩
      (c1Slot 2) rfl rfl (c1Booking 2 "a@x.de") (by decide) rfl rfl rfl).1
     (by decide)⟩

/-- C3: if `respondByToken(token, "accept")` reaches the capacity check of a
pending invitation (token known, status pending, slot present and not in the
past, application present) while the slot's active confirmed count is already
at or above `max_attendees`, the call fails with `CapacityExceeded`
("Leider sind keine Plätze mehr verfügbar") — and since the capacity check at
viewings.py lines 1099–1110 runs before `invitation.accept()` and before any
commit, an error result leaves the store untouched: the invitation stays
`pending` with `responded_at` unset and no booking row exists. -/
theorem C3_invitation_accept_atomicity (db : DB) (now : Int) (token : Nat)
    (inv : ViewingInvitation)
    (hinv : db.invitations.find? (fun i => i.invitation_token == token) = some inv)
    (hpend : inv.status = .pending)
    (slot : ViewingSlot) (hslot : findSlot db inv.slot_id = some slot)
    (hfut : ¬ slot.start_time < now)
    (app : Application)
    (happ : db.applications.find? (fun a => a.id == inv.application_id) = some app)
    (hcap : slot.max_attendees ≤ activeCount db slot.id) :
    respondToInvitation now token .accept db = .error errNoSpotsInvitation := by
  simp only [respondToInvitation, hinv, hslot, happ]
  rw [if_neg (by simp [hpend]), if_neg hfut, if_pos hcap]

def c3Slot : ViewingSlot := ⟨6, 10, 10000, 13600, .group, .public, 1, none⟩
def c3Inv : ViewingInvitation := ⟨7, 6, 5, .pending, none, 7⟩
def c3db : DB :=
  ⟨[10], [c2App], [c3Slot],
   [⟨8, 6, "Bea", "Roth", "b@x.de", none, true, none, none, false, false, none⟩],
   [c3Inv], 9⟩

/-- Witness for C3: a full capacity-1 slot with a pending invitation; the
accept is rejected with the capacity error. -/
theorem C3_invitation_accept_atomicity_witness :
    c3db.invitations.find? (fun i => i.invitation_token == 7) = some c3Inv ∧
    c3Inv.status = .pending ∧
    findSlot c3db c3Inv.slot_id = some c3Slot ∧
    ¬ c3Slot.start_time < (0 : Int) ∧
    c3db.applications.find? (fun a => a.id == c3Inv.application_id) = some c2App ∧
    c3Slot.max_attendees ≤ activeCount c3db c3Slot.id ∧
    respondToInvitation 0 7 .accept c3db = .error errNoSpotsInvitation :=
  ⟨rfl, rfl, rfl, by decide, rfl, by decide,
   C3_invitation_accept_atomicity c3db 0 7 c3Inv rfl rfl c3Slot rfl (by decide)
     c2App rfl (by decide)⟩

/-- C4 (amended): when the capacity and duplicate-e-mail checks pass, a
direct `book()` on an existing public slot fails with the past-viewing
`BadRequest` exactly when `start_time` is strictly before `now`
(`slot.start_time < datetime.utcnow()`, viewings.py lines 615–620) — at
`start_time = now` the booking is allowed; and when the slot is full or the
e-mail already holds an uncancelled booking, those earlier checks (lines
589–613) fail first with their own errors, so no booking is created in any
failure case. -/
theorem C4_book_past_rejected (db : DB) (now : Int) (sid : Nat) (d : BookingCreate)
    (slot : ViewingSlot) (hs : findSlot db sid = some slot)
    (hpub : slot.access_type = .public)
    (hcap : activeCount db sid < slot.max_attendees)
    (hdup : (findUncancelled db sid d.email).isSome = false) :
    (slot.start_time < now → bookViewingSlot now sid d db = .error errPast) ∧
    (¬ slot.start_time < now →
      ∃ db', bookViewingSlot now sid d db = .ok (db', db.nextId)) := by
  simp only [bookViewingSlot, hs]
  constructor
  · intro hp
    rw [if_neg (by simp [hpub]), if_neg (by omega), if_neg (by simp [hdup]),
      if_pos hp]
  · intro hnp
    rw [if_neg (by simp [hpub]), if_neg (by omega), if_neg (by simp [hdup]),
      if_neg hnp]
    exact ⟨_, rfl⟩

def c4Slot : ViewingSlot := ⟨1, 10, 5, 20, .group, .public, 1, none⟩
def c4db1 : DB := ⟨[10], [], [c4Slot], [], [], 2⟩
def c4db2 : DB :=
  ⟨[10], [], [c4Slot],
   [⟨2, 1, "Ana", "Meier", "a@x.de", none, true, none, none, false, false, none⟩], [], 3⟩

/-- Trace for the C4 counterexample: a capacity-1 slot starting at time 5,
booked once at time 0. -/
theorem c4_reach2 (b : Bool) : Reachable b c4db2 :=
  .step c4db1 c4db2
    (.step dbP c4db1 (.init dbP ⟨rfl, rfl, rfl⟩)
      (.create dbP c4db1 ⟨10, 5, 20, .group, .public, 1, none⟩ 1
        (by decide) (by decide) (by decide) rfl))
    (.book c4db1 c4db2 0 1 ⟨"Ana", "Meier", "a@x.de", none, none⟩ 2 rfl)

/-- C4 counterexample, two independent refutations of the claim as stated:
(a) on a reachable full slot whose start time has passed, `book()` fails with
the capacity error, not the past-viewing `BadRequest` — the capacity check
runs first (viewings.py lines 589–600 before 615–620); (b) on a reachable
slot with `start_time = now` (start_time ≤ now, "not in the future") the
booking succeeds, because the code rejects only `start_time < now`. -/
theorem C4_book_past_counterexample :
    (Reachable false c4db2 ∧
     findSlot c4db2 1 = some c4Slot ∧
     c4Slot.access_type = .public ∧
     c4Slot.start_time ≤ 10000 ∧
     bookViewingSlot 10000 1 ⟨"Bea", "Roth", "b@x.de", none, none⟩ c4db2
       = .error errNoSpots ∧
     errNoSpots ≠ errPast) ∧
    (Reachable false c1db2 ∧
     findSlot c1db2 1 = some (c1Slot 2) ∧
     (c1Slot 2).access_type = .public ∧
     (c1Slot 2).start_time ≤ 10000 ∧
     ∃ db', bookViewingSlot 10000 1 ⟨"Eva", "Kurz", "e@x.de", none, none⟩ c1db2
       = .ok (db', 3)) :=
  ⟨⟨c4_reach2 false, rfl, rfl, by decide, rfl, by decide⟩,
   ⟨c1_reach2 false, rfl, rfl, by decide, ⟨_, rfl⟩⟩⟩

/-- Witness for amended C4: booking the past (still empty) capacity-1 slot at
time 10000 is rejected as a past viewing. -/
theorem C4_book_past_rejected_witness :
    findSlot c4db1 1 = some c4Slot ∧
    c4Slot.access_type = .public ∧
    activeCount c4db1 1 < c4Slot.max_attendees ∧
    (findUncancelled c4db1 1 "b@x.de").isSome = false ∧
    c4Slot.start_time < 10000 ∧
    bookViewingSlot 10000 1 ⟨"Bea", "Roth", "b@x.de", none, none⟩ c4db1
      = .error errPast :=
  ⟨rfl, rfl, by decide, rfl, by decide,
   (C4_book_past_rejected c4db1 10000 1 ⟨"Bea", "Roth", "b@x.de", none, none⟩
      c4Slot rfl rfl (by decide) rfl).1 (by decide)⟩

/-- C5: for an existing, not-yet-cancelled booking of an existing slot,
`cancel()` succeeds at every time up to and including exactly
`start_time - 1h`, and fails with the deadline `BadRequest` whenever the
current time is strictly after that instant (`cancel_booking` rejects iff
`utcnow() > start_time - timedelta(hours=1)`, viewings.py lines 714–720). -/
theorem C5_cancellation_deadline (db : DB) (now : Int) (sid bid : Nat)
    (b : Booking)
    (hb : db.bookings.find? (fun x => x.id == bid && x.slot_id == sid) = some b)
    (hbc : b.cancelled_at = none)
    (slot : ViewingSlot) (hslot : findSlot db sid = some slot) :
    (now ≤ slot.start_time - 3600 →
      ∃ db', cancelBooking now sid bid db = .ok (db', now)) ∧
    (slot.start_time - 3600 < now →
      cancelBooking now sid bid db = .error errDeadline) := by
  simp only [cancelBooking, hb, hslot]
  constructor
  · intro h
    rw [if_neg (by simp [hbc]), if_neg (by omega)]
    exact ⟨_, rfl⟩
  · intro h
    rw [if_neg (by simp [hbc]), if_pos (by omega)]

def c5Slot : ViewingSlot := ⟨1, 10, 7200, 9000, .group, .public, 2, none⟩
def c5Booking : Booking :=
  ⟨2, 1, "Ana", "Meier", "a@x.de", none, true, none, none, false, false, none⟩
def c5db : DB := ⟨[10], [], [c5Slot], [c5Booking], [], 3⟩

/-- Witness for C5 at the spec's boundary probe: slot starts at 7200, so the
deadline is 3600; cancelling at exactly 3600 succeeds and at 3601 fails. -/
theorem C5_cancellation_deadline_witness :
    c5db.bookings.find? (fun x => x.id == 2 && x.slot_id == 1) = some c5Booking ∧
    c5Booking.cancelled_at = none ∧
    findSlot c5db 1 = some c5Slot ∧
    (3600 : Int) ≤ c5Slot.start_time - 3600 ∧
    (∃ db', cancelBooking 3600 1 2 c5db = .ok (db', 3600)) ∧
    c5Slot.start_time - 3600 < (3601 : Int) ∧
    cancelBooking 3601 1 2 c5db = .error errDeadline :=
  ⟨rfl, rfl, rfl, by decide,
   (C5_cancellation_deadline c5db 3600 1 2 c5Booking rfl rfl c5Slot rfl).1 (by decide),
   by decide,
   (C5_cancellation_deadline c5db 3601 1 2 c5Booking rfl rfl c5Slot rfl).2 (by decide)⟩

/-- A `find?` over a list mapped by a field-preserving function finds the
image of what the original `find?` finds. -/
theorem find?_map_pres {l : List Booking} {f : Booking → Booking} {p : Booking → Bool}
    (hf : ∀ x, p (f x) = p x) : (l.map f).find? p = (l.find? p).map f := by
  induction l with
  | nil => simp
  | cons a t ih =>
    by_cases hpa : p a = true
    · rw [List.map_cons, List.find?_cons_of_pos _ (by rw [hf]; exact hpa),
        List.find?_cons_of_pos _ hpa]
      rfl
    · rw [List.map_cons,
        List.find?_cons_of_neg _ (by simp only [hf]; simpa using hpa),
        List.find?_cons_of_neg _ (by simpa using hpa), ih]

/-- C6: cancellation is one-way.  A first successful `cancel()` writes
`cancelled_at = now` and clears `confirmed` (`Booking.cancel`,
app/models/booking.py lines 87–90); a second `cancel()` on the same booking
hits the `booking.cancelled_at` guard (viewings.py lines 700–704), fails with
"Buchung wurde bereits storniert", and — being a pre-commit raise — leaves
the stored `cancelled_at` at the first call's value. -/
theorem C6_cancellation_irreversible (db : DB) (now1 now2 : Int) (sid bid : Nat)
    (b : Booking)
    (hb : db.bookings.find? (fun x => x.id == bid && x.slot_id == sid) = some b)
    (hbc : b.cancelled_at = none)
    (slot : ViewingSlot) (hslot : findSlot db sid = some slot)
    (hdl : now1 ≤ slot.start_time - 3600) :
    ∃ db', cancelBooking now1 sid bid db = .ok (db', now1) ∧
      (∀ x ∈ db'.bookings, x.id = bid → x.slot_id = sid →
        x.cancelled_at = some now1 ∧ x.confirmed = false) ∧
      cancelBooking now2 sid bid db' = .error errAlreadyCancelled := by
  simp only [cancelBooking, hb, hslot]
  rw [if_neg (by simp [hbc]), if_neg (by omega)]
  refine ⟨_, rfl, ?_, ?_⟩
  · intro x hx hid hsid
    simp only [List.mem_map] at hx
    obtain ⟨y, hym, hye⟩ := hx
    by_cases hc : y.id == bid && y.slot_id == sid
    · rw [← hye, if_pos hc]
      exact ⟨rfl, rfl⟩
    · rw [← hye, if_neg hc] at hid hsid ⊢
      exact absurd (by simp [hid, hsid]) hc
  · have hfp : ∀ x : Booking,
        ((fun x : Booking => x.id == bid && x.slot_id == sid)
          (if x.id == bid && x.slot_id == sid then
            { x with cancelled_at := some now1, confirmed := false }
          else x))
        = (fun x : Booking => x.id == bid && x.slot_id == sid) x := by
      intro x
      by_cases hc : x.id == bid && x.slot_id == sid
      · rw [if_pos hc]
      · rw [if_neg hc]
    have hpb := List.find?_some hb
    have hfind2 : (db.bookings.map (fun x =>
        if x.id == bid && x.slot_id == sid then
          { x with cancelled_at := some now1, confirmed := false }
        else x)).find? (fun x => x.id == bid && x.slot_id == sid)
        = some { b with cancelled_at := some now1, confirmed := false } := by
      rw [find?_map_pres hfp, hb]
      dsimp only [Option.map]
      rw [if_pos hpb]
    simp only [cancelBooking]
    rw [hfind2]
    rfl

/-- Witness for C6: cancel at time 0 (slot starts at 7200), then try again at
time 5000 — the second call is rejected and the stored row keeps
`cancelled_at = 0` and `confirmed = false`. -/
theorem C6_cancellation_irreversible_witness :
    c5db.bookings.find? (fun x => x.id == 2 && x.slot_id == 1) = some c5Booking ∧
    c5Booking.cancelled_at = none ∧
    findSlot c5db 1 = some c5Slot ∧
    (0 : Int) ≤ c5Slot.start_time - 3600 ∧
    (∃ db', cancelBooking 0 1 2 c5db = .ok (db', 0) ∧
      (∀ x ∈ db'.bookings, x.id = 2 → x.slot_id = 1 →
        x.cancelled_at = some 0 ∧ x.confirmed = false) ∧
      cancelBooking 5000 1 2 db' = .error errAlreadyCancelled) :=
  ⟨rfl, rfl, rfl, by decide,
   C6_cancellation_irreversible c5db 0 5000 1 2 c5Booking rfl rfl c5Slot rfl
     (by decide)⟩

/-- A booking selected by the 24-hour reminder query has its flag unset, is
confirmed and is uncancelled. -/
theorem due24h_true {slots : List ViewingSlot} {now : Int} {b : Booking}
    (h : due24h slots now b = true) :
    b.reminder_24h_sent = false ∧ b.confirmed = true ∧ b.cancelled_at = none := by
  unfold due24h at h
  cases hf : slots.find? (fun s => s.id == b.slot_id) with
  | none => rw [hf] at h; exact absurd h (by simp)
  | some s =>
    rw [hf] at h
    simp only [Bool.and_eq_true, Bool.not_eq_true', Option.isNone_iff_eq_none] at h
    exact ⟨h.1.1.2, h.1.2, h.2⟩

/-- A booking selected by the 1-hour reminder query has its flag unset, is
confirmed and is uncancelled. -/
theorem due1h_true {slots : List ViewingSlot} {now : Int} {b : Booking}
    (h : due1h slots now b = true) :
    b.reminder_1h_sent = false ∧ b.confirmed = true ∧ b.cancelled_at = none := by
  unfold due1h at h
  cases hf : slots.find? (fun s => s.id == b.slot_id) with
  | none => rw [hf] at h; exact absurd h (by simp)
  | some s =>
    rw [hf] at h
    simp only [Bool.and_eq_true, Bool.not_eq_true', Option.isNone_iff_eq_none] at h
    exact ⟨h.1.1.2, h.1.2, h.2⟩

theorem applyReminder24h_id (sOk : Booking → Bool) (sl : List ViewingSlot)
    (pr : List Nat) (now : Int) (b : Booking) :
    (applyReminder24h sOk sl pr now b).id = b.id := by
  unfold applyReminder24h
  split <;> rfl

theorem applyReminder1h_id (sOk : Booking → Bool) (sl : List ViewingSlot)
    (pr : List Nat) (now : Int) (b : Booking) :
    (applyReminder1h sOk sl pr now b).id = b.id := by
  unfold applyReminder1h
  split <;> rfl

/-- The 24-hour selection predicate ignores the 1-hour flag, the only field
`applyReminder1h` can change. -/
theorem due24h_apply1h (sOk : Booking → Bool) (sl : List ViewingSlot)
    (pr : List Nat) (now now2 : Int) (b : Booking) :
    due24h sl now2 (applyReminder1h sOk sl pr now b) = due24h sl now2 b := by
  unfold applyReminder1h
  split <;> rfl

/-- The 1-hour selection predicate ignores the 24-hour flag, the only field
`applyReminder24h` can change. -/
theorem due1h_apply24 (sOk : Booking → Bool) (sl : List ViewingSlot)
    (pr : List Nat) (now now2 : Int) (b : Booking) :
    due1h sl now2 (applyReminder24h sOk sl pr now b) = due1h sl now2 b := by
  unfold applyReminder24h
  split <;> rfl

theorem prop_apply24 (sOk : Booking → Bool) (sl : List ViewingSlot)
    (pr : List Nat) (now : Int) (b : Booking) :
    reminderPropOk sl pr (applyReminder24h sOk sl pr now b) = reminderPropOk sl pr b := by
  unfold applyReminder24h
  split <;> rfl

theorem prop_apply1h (sOk : Booking → Bool) (sl : List ViewingSlot)
    (pr : List Nat) (now : Int) (b : Booking) :
    reminderPropOk sl pr (applyReminder1h sOk sl pr now b) = reminderPropOk sl pr b := by
  unfold applyReminder1h
  split <;> rfl

theorem flag24_apply1h (sOk : Booking → Bool) (sl : List ViewingSlot)
    (pr : List Nat) (now : Int) (b : Booking) :
    (applyReminder1h sOk sl pr now b).reminder_24h_sent = b.reminder_24h_sent := by
  unfold applyReminder1h
  split <;> rfl

/-- The 2-hour daily window `[now+23h, now+25h]` and the 20-minute hourly
window `[now+50min, now+70min]` are disjoint: no booking is selected by both
queries of the same wake. -/
theorem due_windows_disjoint {sl : List ViewingSlot} {now : Int} {b : Booking}
    (h24 : due24h sl now b = true) (h1 : due1h sl now b = true) : False := by
  unfold due24h at h24
  unfold due1h at h1
  cases hf : sl.find? (fun s => s.id == b.slot_id) with
  | none => rw [hf] at h24; exact absurd h24 (by simp)
  | some s =>
    rw [hf] at h24 h1
    simp only [Bool.and_eq_true, decide_eq_true_eq] at h24 h1
    omega

/-- C7: the reminder scan is idempotent per booking and reminder kind
(`send_reminders`, app/core/scheduler.py).  In order: (1)–(2) a booking whose
flag is already set, or which is cancelled or unconfirmed, is never dispatched
to (the queries filter on flag, `confirmed` and `cancelled_at`); (3)–(4) a
dispatched booking ends the wake with its flag equal to the dispatch outcome —
set on success, still clear on failure; (5) within one wake no booking row is
dispatched twice for the same kind (given unique row ids); (6)–(7) every
applicable booking is dispatched; (8) a second wake right after one whose
dispatches all succeeded dispatches nothing — so each applicable reminder is
sent exactly once across the two runs. -/
theorem C7_reminder_idempotence (db : DB) (now : Int) (sendOk : Booking → Bool) :
    (∀ x ∈ (sendReminders sendOk now db).2.1,
      x.reminder_24h_sent = false ∧ x.confirmed = true ∧ x.cancelled_at = none) ∧
    (∀ x ∈ (sendReminders sendOk now db).2.2,
      x.reminder_1h_sent = false ∧ x.confirmed = true ∧ x.cancelled_at = none) ∧
    (∀ x ∈ (sendReminders sendOk now db).2.1,
      ∃ b' ∈ (sendReminders sendOk now db).1.bookings,
        b'.id = x.id ∧ b'.reminder_24h_sent = sendOk x) ∧
    (∀ x ∈ (sendReminders sendOk now db).2.2,
      ∃ b' ∈ (sendReminders sendOk now db).1.bookings,
        b'.id = x.id ∧ b'.reminder_1h_sent = sendOk x) ∧
    ((db.bookings.map (fun b => b.id)).Nodup →
      ((sendReminders sendOk now db).2.1.map (fun b => b.id)).Nodup ∧
      ((sendReminders sendOk now db).2.2.map (fun b => b.id)).Nodup) ∧
    (∀ b ∈ db.bookings, due24h db.slots now b = true →
      reminderPropOk db.slots db.properties b = true →
      b ∈ (sendReminders sendOk now db).2.1) ∧
    (∀ b ∈ db.bookings, due1h db.slots now b = true →
      reminderPropOk db.slots db.properties b = true →
      b ∈ (sendReminders sendOk now db).2.2) ∧
    (sendReminders (fun _ => true) now
      (sendReminders (fun _ => true) now db).1).2.1 = [] ∧
    (sendReminders (fun _ => true) now
      (sendReminders (fun _ => true) now db).1).2.2 = [] := by
  have e24 : (sendReminders sendOk now db).2.1
      = (db.bookings.filter (due24h db.slots now)).filter
          (reminderPropOk db.slots db.properties) := rfl
  have e1 : (sendReminders sendOk now db).2.2
      = ((db.bookings.map (applyReminder24h sendOk db.slots db.properties now)).filter
          (due1h db.slots now)).filter (reminderPropOk db.slots db.properties) := rfl
  have efin : (sendReminders sendOk now db).1.bookings
      = (db.bookings.map (applyReminder24h sendOk db.slots db.properties now)).map
          (applyReminder1h sendOk db.slots db.properties now) := rfl
  refine ⟨?_, ?_, ?_, ?_, ?_, ?_, ?_, ?_, ?_⟩
  · intro x hx
    rw [e24] at hx
    obtain ⟨hx1, -⟩ := List.mem_filter.1 hx
    obtain ⟨-, hdue⟩ := List.mem_filter.1 hx1
    exact due24h_true hdue
  · intro x hx
    rw [e1] at hx
    obtain ⟨hx1, -⟩ := List.mem_filter.1 hx
    obtain ⟨-, hdue⟩ := List.mem_filter.1 hx1
    exact due1h_true hdue
  · intro x hx
    rw [e24] at hx
    obtain ⟨hx1, hprop⟩ := List.mem_filter.1 hx
    obtain ⟨hxm, hdue⟩ := List.mem_filter.1 hx1
    refine ⟨applyReminder1h sendOk db.slots db.properties now
      (applyReminder24h sendOk db.slots db.properties now x), ?_, ?_, ?_⟩
    · rw [efin]
      exact List.mem_map_of_mem _ (List.mem_map_of_mem _ hxm)
    · rw [applyReminder1h_id, applyReminder24h_id]
    · rw [flag24_apply1h]
      unfold applyReminder24h
      by_cases hs : sendOk x = true
      · rw [if_pos (by simp [hdue, hprop, hs]), hs]
      · have hs' : sendOk x = false := by simpa using hs
        rw [if_neg (by simp [hs']), (due24h_true hdue).1, hs']
  · intro x hx
    rw [e1] at hx
    obtain ⟨hx1, hprop⟩ := List.mem_filter.1 hx
    obtain ⟨hxm, hdue⟩ := List.mem_filter.1 hx1
    refine ⟨applyReminder1h sendOk db.slots db.properties now x, ?_, ?_, ?_⟩
    · rw [efin]
      exact List.mem_map_of_mem _ hxm
    · rw [applyReminder1h_id]
    · unfold applyReminder1h
      by_cases hs : sendOk x = true
      · rw [if_pos (by simp [hdue, hprop, hs]), hs]
      · have hs' : sendOk x = false := by simpa using hs
        rw [if_neg (by simp [hs']), (due1h_true hdue).1, hs']
  · intro hnd
    constructor
    · rw [e24]
      have hsub : ((db.bookings.filter (due24h db.slots now)).filter
          (reminderPropOk db.slots db.properties)).Sublist db.bookings :=
        (List.filter_sublist _).trans (List.filter_sublist _)
      exact (hsub.map (fun b => b.id)).nodup hnd
    · rw [e1]
      have hsub : (((db.bookings.map
          (applyReminder24h sendOk db.slots db.properties now)).filter
            (due1h db.slots now)).filter
          (reminderPropOk db.slots db.properties)).Sublist
          (db.bookings.map (applyReminder24h sendOk db.slots db.properties now)) :=
        (List.filter_sublist _).trans (List.filter_sublist _)
      have hids : (db.bookings.map
          (applyReminder24h sendOk db.slots db.properties now)).map (fun b => b.id)
          = db.bookings.map (fun b => b.id) := by
        rw [List.map_map]
        exact List.map_congr_left (fun b _ => applyReminder24h_id _ _ _ _ _)
      have hnd2 : ((db.bookings.map
          (applyReminder24h sendOk db.slots db.properties now)).map
            (fun b => b.id)).Nodup := by
        rw [hids]
        exact hnd
      exact (hsub.map (fun b => b.id)).nodup hnd2
  · intro b hb hdue hprop
    rw [e24]
    exact List.mem_filter.2 ⟨List.mem_filter.2 ⟨hb, hdue⟩, hprop⟩
  · intro b hb hdue hprop
    rw [e1]
    have hb24 : due24h db.slots now b = false := by
      cases hd : due24h db.slots now b with
      | false => rfl
      | true => exact (due_windows_disjoint hd hdue).elim
    have ha : applyReminder24h sendOk db.slots db.properties now b = b := by
      unfold applyReminder24h
      rw [if_neg (by simp [hb24])]
    refine List.mem_filter.2 ⟨List.mem_filter.2 ⟨?_, hdue⟩, hprop⟩
    rw [← ha]
    exact List.mem_map_of_mem _ hb
  · have e24b : (sendReminders (fun _ => true) now
        (sendReminders (fun _ => true) now db).1).2.1
        = (((db.bookings.map
            (applyReminder24h (fun _ => true) db.slots db.properties now)).map
              (applyReminder1h (fun _ => true) db.slots db.properties now)).filter
            (due24h db.slots now)).filter
          (reminderPropOk db.slots db.properties) := rfl
    rw [e24b]
    rw [List.filter_eq_nil_iff]
    intro x hx
    obtain ⟨hxm, hdue2⟩ := List.mem_filter.1 hx
    simp only [List.mem_map] at hxm
    obtain ⟨z, ⟨y, hym, hyz⟩, hzx⟩ := hxm
    subst hyz
    subst hzx
    rw [due24h_apply1h] at hdue2
    by_cases h24 : due24h db.slots now y = true
    · by_cases hp : reminderPropOk db.slots db.properties y = true
      · exfalso
        have hflag : (applyReminder24h (fun _ => true) db.slots db.properties now
            y).reminder_24h_sent = true := by
          unfold applyReminder24h
          rw [if_pos (by simp [h24, hp])]
        have hflag' := (due24h_true hdue2).1
        rw [hflag] at hflag'
        exact absurd hflag' (by simp)
      · have ha : applyReminder24h (fun _ => true) db.slots db.properties now y = y := by
          unfold applyReminder24h
          rw [if_neg (by simp [hp])]
        rw [ha, prop_apply1h]
        simp [hp]
    · exfalso
      have ha : applyReminder24h (fun _ => true) db.slots db.properties now y = y := by
        unfold applyReminder24h
        rw [if_neg (by simp [h24])]
      rw [ha] at hdue2
      exact absurd hdue2 (by simp [h24])
  · have e1b : (sendReminders (fun _ => true) now
        (sendReminders (fun _ => true) now db).1).2.2
        = ((((db.bookings.map
            (applyReminder24h (fun _ => true) db.slots db.properties now)).map
              (applyReminder1h (fun _ => true) db.slots db.properties now)).map
            (applyReminder24h (fun _ => true) db.slots db.properties now)).filter
              (due1h db.slots now)).filter
          (reminderPropOk db.slots db.properties) := rfl
    rw [e1b]
    rw [List.filter_eq_nil_iff]
    intro x hx
    obtain ⟨hxm, hdue2⟩ := List.mem_filter.1 hx
    simp only [List.mem_map] at hxm
    obtain ⟨w, ⟨z, ⟨y, hym, hyz⟩, hzw⟩, hwx⟩ := hxm
    subst hyz
    subst hzw
    subst hwx
    rw [due1h_apply24] at hdue2
    by_cases h1 : due1h db.slots now
        (applyReminder24h (fun _ => true) db.slots db.properties now y) = true
    · by_cases hp : reminderPropOk db.slots db.properties
          (applyReminder24h (fun _ => true) db.slots db.properties now y) = true
      · exfalso
        have hflag : (applyReminder1h (fun _ => true) db.slots db.properties now
            (applyReminder24h (fun _ => true) db.slots db.properties now
              y)).reminder_1h_sent = true := by
          unfold applyReminder1h
          rw [if_pos (by simp [h1, hp])]
        have hflag' := (due1h_true hdue2).1
        rw [hflag] at hflag'
        exact absurd hflag' (by simp)
      · have ha : applyReminder1h (fun _ => true) db.slots db.properties now
            (applyReminder24h (fun _ => true) db.slots db.properties now y)
            = applyReminder24h (fun _ => true) db.slots db.properties now y := by
          unfold applyReminder1h
          rw [if_neg (by simp [hp])]
        rw [ha, prop_apply24]
        exact hp
    · exfalso
      have ha : applyReminder1h (fun _ => true) db.slots db.properties now
          (applyReminder24h (fun _ => true) db.slots db.properties now y)
          = applyReminder24h (fun _ => true) db.slots db.properties now y := by
        unfold applyReminder1h
        rw [if_neg (by simp [h1])]
      rw [ha] at hdue2
      exact absurd hdue2 (by simp [h1])

def c7Slot24 : ViewingSlot := ⟨1, 10, 86400, 90000, .group, .public, 5, none⟩
def c7Slot1h : ViewingSlot := ⟨2, 10, 3600, 5400, .group, .public, 5, none⟩
def c7B24 : Booking :=
  ⟨3, 1, "Ana", "Meier", "a@x.de", none, true, none, none, false, false, none⟩
def c7B1h : Booking :=
  ⟨4, 2, "Bea", "Roth", "b@x.de", none, true, none, none, false, false, none⟩
def c7db : DB := ⟨[10], [], [c7Slot24, c7Slot1h], [c7B24, c7B1h], [], 5⟩

/-- Witness for C7 at time 0: one booking 24 hours before its slot, one an
hour before; both are dispatched on the first wake and the immediate second
wake dispatches nothing. -/
theorem C7_reminder_idempotence_witness :
    due24h c7db.slots 0 c7B24 = true ∧
    reminderPropOk c7db.slots c7db.properties c7B24 = true ∧
    c7B24 ∈ (sendReminders (fun _ => true) 0 c7db).2.1 ∧
    due1h c7db.slots 0 c7B1h = true ∧
    reminderPropOk c7db.slots c7db.properties c7B1h = true ∧
    c7B1h ∈ (sendReminders (fun _ => true) 0 c7db).2.2 ∧
    (sendReminders (fun _ => true) 0
      (sendReminders (fun _ => true) 0 c7db).1).2.1 = [] ∧
    (sendReminders (fun _ => true) 0
      (sendReminders (fun _ => true) 0 c7db).1).2.2 = [] :=
  ⟨by decide, by decide,
   (C7_reminder_idempotence c7db 0 (fun _ => true)).2.2.2.2.2.1 c7B24
     (by decide) (by decide) (by decide),
   by decide, by decide,
   (C7_reminder_idempotence c7db 0 (fun _ => true)).2.2.2.2.2.2.1 c7B1h
     (by decide) (by decide) (by decide),
   (C7_reminder_idempotence c7db 0 (fun _ => true)).2.2.2.2.2.2.2.1,
   (C7_reminder_idempotence c7db 0 (fun _ => true)).2.2.2.2.2.2.2.2⟩

def c10Slot : ViewingSlot := ⟨1, 10, 10000, 13600, .individual, .public, 1, none⟩
def c10db : DB := ⟨[10], [], [c10Slot], [], [], 2⟩
def c10upd : ViewingSlotUpdate :=
  { slot_type := some .individual, max_attendees := some 7 }

/-- Witness for C10: an individual slot updated to capacity 7 (slot_type set
to individual in the same update) stores exactly 7 — no clamp on update. -/
theorem C10_update_max_verbatim_witness :
    c10upd.max_attendees = some 7 ∧
    1 ≤ 7 ∧ (7 : Nat) ≤ 100 ∧
    findSlot c10db 1 = some c10Slot ∧
    (∃ db', updateViewingSlot c10db 1 c10upd = .ok (db', ()) ∧
      ∀ s' ∈ db'.slots, s'.id = 1 → s'.max_attendees = 7) :=
  ⟨rfl, by decide, by decide, rfl,
   C10_update_max_verbatim c10db 1 c10upd 7 rfl (by decide) (by decide) c10Slot rfl⟩
